import Mathlib

/-!
Verification of the FastNN block-sparse utilities (`src/utils.py`):
`reduce_mask`, `sparse_gather` and `sparse_scatter`.

Modelling conventions (shallow embedding of the Python/PyTorch source):

* A rank-4 feature tensor is a total function `ℕ → ℕ → ℕ → ℕ → ℚ`
  (batch, channel, row, column), paired with explicit shape metadata
  `(N, C, H, W)`, exactly as the source passes `xsize` explicitly.
  A rank-3 mask tensor is `ℕ → ℕ → ℕ → ℚ` with metadata `(N, H, W)`.
  Real-valued tensor entries are modelled as rationals.
* Python slices `a : min (a+k) bound` clip at the upper bound; with
  natural-number indices a slice whose start lies past the bound is empty.
* Python `assert` failures and PyTorch exceptions are modelled as
  `Except.error` / a `some` error message.  `sparse_scatter` mutates its
  argument in place, so it returns the tensor state reached when the
  exception fires together with `Option String`: writes performed before
  the failing iteration persist, as they do in the source.
* PyTorch tensor assignment `dst[i] = src` (and in-place `+=`) broadcasts:
  every source dimension must equal the destination dimension or be `1`
  (a size-1 dimension is replicated); otherwise a shape-mismatch
  RuntimeError is raised before any element is copied.
* `torch.empty` returns uninitialised storage; we model the fresh
  allocation as the all-zero tensor (no claim depends on those values).
* The source indexes the gathered tensor itself (its `gsize` metadata
  parameter is unused); since our functional tensors carry no intrinsic
  shape, the `gsize` argument of `sparse_scatter` below stands for the
  actual shape of the gathered tensor.
* `reduce_mask` asserts `len(mask.size()) == 3` on the tensor itself; the
  rank of the incoming mask is passed as the explicit `maskRank` argument.
  The `type(...) in [list, tuple]` asserts are enforced by Lean's types.
-/

abbrev Tensor3 := ℕ → ℕ → ℕ → ℚ

abbrev Tensor4 := ℕ → ℕ → ℕ → ℕ → ℚ

/-- Pixel-space row of a block's top-left corner: `boffset[0] + h0*bstride[0]`. -/
def rowCorner (boffset bstride : ℕ × ℕ) (h0 : ℕ) : ℕ :=
  boffset.1 + h0 * bstride.1

/-- Pixel-space column of a block's top-left corner: `boffset[1] + w0*bstride[1]`. -/
def colCorner (boffset bstride : ℕ × ℕ) (w0 : ℕ) : ℕ :=
  boffset.2 + w0 * bstride.2

/-- Length of the clipped slice `corner : min (corner + bs) bound`. -/
def clipLen (corner bs bound : ℕ) : ℕ :=
  min (corner + bs) bound - corner

/-- Sum of the mask entries of batch `n` over rows `[r1, r2)` and columns `[c1, c2)`. -/
def blockSum (mask : Tensor3) (n r1 r2 c1 c2 : ℕ) : ℚ :=
  ((List.range' r1 (r2 - r1)).map fun i =>
    ((List.range' c1 (c2 - c1)).map fun j => mask n i j).sum).sum

/-- Mean of the clipped mask block of batch `n` whose top-left corner is
`(bh, bw)`: the source's `mask[N, bh:min(bh+bsize[0], msize[1]), bw:min(bw+bsize[1], msize[2])].mean()`. -/
def blockMean (mask : Tensor3) (msize : ℕ × ℕ × ℕ) (bsize : ℕ × ℕ) (n bh bw : ℕ) : ℚ :=
  let r2 := min (bh + bsize.1) msize.2.1
  let c2 := min (bw + bsize.2) msize.2.2
  blockSum mask n bh r2 bw c2 / (((r2 - bh) * (c2 - bw) : ℕ) : ℚ)

/-- The triple-loop body of `reduce_mask`: for each batch, each grid row, each
grid column (in that nesting order), append `[N, h0, w0]` when the mean of the
clipped mask block is strictly above the threshold. -/
def reduceMaskCore (mask : Tensor3) (msize : ℕ × ℕ × ℕ) (bsize bcount boffset bstride : ℕ × ℕ)
    (thresh : ℚ) : List (ℕ × ℕ × ℕ) :=
  (List.range msize.1).flatMap fun n =>
    (List.range bcount.1).flatMap fun h0 =>
      (List.range bcount.2).filterMap fun w0 =>
        if blockMean mask msize bsize n (rowCorner boffset bstride h0)
            (colCorner boffset bstride w0) > thresh then
          some (n, h0, w0)
        else
          none

/-- `reduce_mask` from `src/utils.py`: validate the asserts (mask rank 3,
square block, grid divides the mask extent), then run the selection loop. -/
def reduce_mask (maskRank : ℕ) (mask : Tensor3) (msize : ℕ × ℕ × ℕ)
    (bsize bcount boffset bstride : ℕ × ℕ) (thresh : ℚ) :
    Except String (List (ℕ × ℕ × ℕ)) :=
  if maskRank ≠ 3 then
    .error "Expect mask rank = 3"
  else if bsize.1 ≠ bsize.2 then
    .error "Expect block to be a square, bsize[0] == bsize[1]"
  else if ¬ (msize.2.1 % bcount.1 = 0 ∧ msize.2.2 % bcount.2 = 0) then
    .error "Mask cannot be partioned into given grid shape"
  else
    .ok (reduceMaskCore mask msize bsize bcount boffset bstride thresh)

/-- The loop of `sparse_gather`: for the entry at list position `i`, copy the
clipped window `x[B, :, bh:min(bh+bs, H), bw:min(bw+bs, W)]` into output slot
`i` (PyTorch assignment: the source extent must match the slot extent or be 1,
a size-1 extent broadcasting across the slot; otherwise a RuntimeError).
Indexing `x` with an out-of-range batch raises an IndexError. -/
def gatherLoop (x : Tensor4) (xsize : ℕ × ℕ × ℕ × ℕ) (bsize boffset bstride : ℕ × ℕ) :
    List (ℕ × ℕ × ℕ) → ℕ → Tensor4 → Except String Tensor4
  | [], _, g => .ok g
  | t :: rest, i, g =>
    let B := t.1
    let bh := rowCorner boffset bstride t.2.1
    let bw := colCorner boffset bstride t.2.2
    let h' := clipLen bh bsize.1 xsize.2.2.1
    let w' := clipLen bw bsize.2 xsize.2.2.2
    if B < xsize.1 then
      if (h' = bsize.1 ∨ h' = 1) ∧ (w' = bsize.2 ∨ w' = 1) then
        gatherLoop x xsize bsize boffset bstride rest (i + 1)
          (fun b c a d =>
            if b = i then
              x B c (bh + (if h' = 1 then 0 else a)) (bw + (if w' = 1 then 0 else d))
            else
              g b c a d)
      else
        .error "The expanded size of the tensor must match the existing size"
    else
      .error "index out of range for dimension 0"

/-- `sparse_gather` from `src/utils.py`: check the square-block assert,
allocate `torch.empty((len(activeBlockIndices), xsize[1], bsize[0], bsize[1]))`
(modelled as zeros) and fill one slot per index-list entry.  The returned pair
carries the allocated shape together with the tensor. -/
def sparse_gather (x : Tensor4) (xsize : ℕ × ℕ × ℕ × ℕ)
    (activeBlockIndices : List (ℕ × ℕ × ℕ)) (bsize bcount boffset bstride : ℕ × ℕ) :
    Except String ((ℕ × ℕ × ℕ × ℕ) × Tensor4) :=
  if bsize.1 ≠ bsize.2 then
    .error "Expect block to be a square, bsize[0] == bsize[1]"
  else
    (gatherLoop x xsize bsize boffset bstride activeBlockIndices 0 fun _ _ _ _ => 0).map
      fun g => ((activeBlockIndices.length, xsize.2.1, bsize.1, bsize.2), g)

/-- The loop of `sparse_scatter`: for the entry at list position `i`, add or
overwrite the clipped window `x[B, :, bh:min(bh+bs, H), bw:min(bw+bs, W)]`
with `gathered[i]` (broadcast as in PyTorch).  An out-of-range batch index, an
`i` past the gathered tensor's first dimension, or a non-broadcastable source
shape raises; the writes already performed persist in the returned tensor. -/
def scatterLoop (g : Tensor4) (gsize xsize : ℕ × ℕ × ℕ × ℕ) (bsize boffset bstride : ℕ × ℕ)
    (do_add : Bool) : List (ℕ × ℕ × ℕ) → ℕ → Tensor4 → Tensor4 × Option String
  | [], _, x => (x, none)
  | t :: rest, i, x =>
    let B := t.1
    let bh := rowCorner boffset bstride t.2.1
    let bw := colCorner boffset bstride t.2.2
    let h' := clipLen bh bsize.1 xsize.2.2.1
    let w' := clipLen bw bsize.2 xsize.2.2.2
    if B < xsize.1 then
      if i < gsize.1 then
        if (gsize.2.1 = xsize.2.1 ∨ gsize.2.1 = 1) ∧ (gsize.2.2.1 = h' ∨ gsize.2.2.1 = 1) ∧
            (gsize.2.2.2 = w' ∨ gsize.2.2.2 = 1) then
          scatterLoop g gsize xsize bsize boffset bstride do_add rest (i + 1)
            (fun b c r s =>
              if b = B ∧ c < xsize.2.1 ∧ bh ≤ r ∧ r < bh + h' ∧ bw ≤ s ∧ s < bw + w' then
                let src := g i (if gsize.2.1 = 1 then 0 else c)
                  (if gsize.2.2.1 = 1 then 0 else r - bh)
                  (if gsize.2.2.2 = 1 then 0 else s - bw)
                if do_add then x b c r s + src else src
              else
                x b c r s)
        else
          (x, some "output with shape doesnt match the broadcast shape")
      else
        (x, some "index out of range in dimension 0")
    else
      (x, some "index out of range for dimension 0")

/-- `sparse_scatter` from `src/utils.py`: check the square-block assert, then
write every gathered slot back at its entry's clipped window, adding when
`do_add` and overwriting otherwise.  Returns the final tensor state and the
error raised, if any. -/
def sparse_scatter (x : Tensor4) (xsize : ℕ × ℕ × ℕ × ℕ) (gathered : Tensor4)
    (gsize : ℕ × ℕ × ℕ × ℕ) (activeBlockIndices : List (ℕ × ℕ × ℕ))
    (bsize bcount boffset bstride : ℕ × ℕ) (do_add : Bool) : Tensor4 × Option String :=
  if bsize.1 ≠ bsize.2 then
    (x, some "Expect block to be a square, bsize[0] == bsize[1]")
  else
    scatterLoop gathered gsize xsize bsize boffset bstride do_add activeBlockIndices 0 x

/-- Strict lexicographic order on `(batch, grid row, grid column)` triples:
batch-major, then grid-row-major, then grid-column-major. -/
def lex3 (p q : ℕ × ℕ × ℕ) : Prop :=
  p.1 < q.1 ∨ (p.1 = q.1 ∧ (p.2.1 < q.2.1 ∨ (p.2.1 = q.2.1 ∧ p.2.2 < q.2.2)))

/-- Two index-list entries have disjoint (unclipped) destination regions:
different batches, or row ranges apart, or column ranges apart. -/
def destDisjoint (bsize boffset bstride : ℕ × ℕ) (p q : ℕ × ℕ × ℕ) : Prop :=
  p.1 ≠ q.1 ∨
    rowCorner boffset bstride p.2.1 + bsize.1 ≤ rowCorner boffset bstride q.2.1 ∨
    rowCorner boffset bstride q.2.1 + bsize.1 ≤ rowCorner boffset bstride p.2.1 ∨
    colCorner boffset bstride p.2.2 + bsize.2 ≤ colCorner boffset bstride q.2.2 ∨
    colCorner boffset bstride q.2.2 + bsize.2 ≤ colCorner boffset bstride p.2.2

/-- Position `(b, r, s)` lies in the destination window of index-list entry
`t`: same batch, and `(r, s)` inside the window at `t`'s corner, extended by
the block size and clipped to the tensor's spatial bounds. -/
def inDestWindow (xsize : ℕ × ℕ × ℕ × ℕ) (bsize boffset bstride : ℕ × ℕ)
    (t : ℕ × ℕ × ℕ) (b r s : ℕ) : Prop :=
  b = t.1 ∧
    rowCorner boffset bstride t.2.1 ≤ r ∧
    r < min (rowCorner boffset bstride t.2.1 + bsize.1) xsize.2.2.1 ∧
    colCorner boffset bstride t.2.2 ≤ s ∧
    s < min (colCorner boffset bstride t.2.2 + bsize.2) xsize.2.2.2

instance (xsize : ℕ × ℕ × ℕ × ℕ) (bsize boffset bstride : ℕ × ℕ)
    (t : ℕ × ℕ × ℕ) (b r s : ℕ) :
    Decidable (inDestWindow xsize bsize boffset bstride t b r s) := by
  unfold inDestWindow; infer_instance

/-- Number of index-list entries whose unclipped destination window covers the
position `(b, r, s)`. -/
def coverCount (abi : List (ℕ × ℕ × ℕ)) (bsize boffset bstride : ℕ × ℕ) (b r s : ℕ) : ℕ :=
  abi.countP fun t =>
    decide (t.1 = b ∧ rowCorner boffset bstride t.2.1 ≤ r ∧
      r < rowCorner boffset bstride t.2.1 + bsize.1 ∧
      colCorner boffset bstride t.2.2 ≤ s ∧
      s < colCorner boffset bstride t.2.2 + bsize.2)

/-- The all-zero rank-4 tensor (a freshly zero-initialised tensor). -/
def zeros4 : Tensor4 := fun _ _ _ _ => 0

lemma ite_bcast {n k : ℕ} (h : k < n) : (if n = 1 then 0 else k) = k := by
  split <;> omega

lemma clipLen_of_le {corner bs bound : ℕ} (h : corner + bs ≤ bound) :
    clipLen corner bs bound = bs := by
  unfold clipLen; omega

/-- An index-list entry is geometrically valid for shape `xsize`: its batch is
in range and its unclipped window lies fully inside the spatial bounds. -/
def entryValid (xsize : ℕ × ℕ × ℕ × ℕ) (bsize boffset bstride : ℕ × ℕ) (t : ℕ × ℕ × ℕ) : Prop :=
  t.1 < xsize.1 ∧
    rowCorner boffset bstride t.2.1 + bsize.1 ≤ xsize.2.2.1 ∧
    colCorner boffset bstride t.2.2 + bsize.2 ≤ xsize.2.2.2

instance (xsize : ℕ × ℕ × ℕ × ℕ) (bsize boffset bstride : ℕ × ℕ) (t : ℕ × ℕ × ℕ) :
    Decidable (entryValid xsize bsize boffset bstride t) := by
  unfold entryValid; infer_instance

lemma gatherLoop_spec (x : Tensor4) (xsize : ℕ × ℕ × ℕ × ℕ) (bsize boffset bstride : ℕ × ℕ) :
    ∀ (l : List (ℕ × ℕ × ℕ)) (i : ℕ) (g0 : Tensor4),
    (∀ t ∈ l, entryValid xsize bsize boffset bstride t) →
    ∃ g, gatherLoop x xsize bsize boffset bstride l i g0 = .ok g ∧
      (∀ b, b < i → g b = g0 b) ∧
      (∀ j (hj : j < l.length) c a d, a < bsize.1 → d < bsize.2 →
        g (i + j) c a d =
          x (l.get ⟨j, hj⟩).1 c
            (rowCorner boffset bstride (l.get ⟨j, hj⟩).2.1 + a)
            (colCorner boffset bstride (l.get ⟨j, hj⟩).2.2 + d)) := by
  intro l
  induction l with
  | nil =>
    intro i g0 _
    exact ⟨g0, rfl, fun _ _ => rfl, fun j hj => absurd hj (by simp)⟩
  | cons t rest ih =>
    intro i g0 hv
    obtain ⟨hB, hH, hW⟩ := hv t (List.mem_cons_self t rest)
    have hrest : ∀ t' ∈ rest, entryValid xsize bsize boffset bstride t' :=
      fun t' ht' => hv t' (List.mem_cons_of_mem t ht')
    have hh' : clipLen (rowCorner boffset bstride t.2.1) bsize.1 xsize.2.2.1 = bsize.1 :=
      clipLen_of_le hH
    have hw' : clipLen (colCorner boffset bstride t.2.2) bsize.2 xsize.2.2.2 = bsize.2 :=
      clipLen_of_le hW
    obtain ⟨g, hg, huntouched, hvals⟩ := ih (i + 1)
      (fun b c a d =>
        if b = i then
          x t.1 c
            (rowCorner boffset bstride t.2.1 +
              (if clipLen (rowCorner boffset bstride t.2.1) bsize.1 xsize.2.2.1 = 1 then 0 else a))
            (colCorner boffset bstride t.2.2 +
              (if clipLen (colCorner boffset bstride t.2.2) bsize.2 xsize.2.2.2 = 1 then 0 else d))
        else g0 b c a d)
      hrest
    refine ⟨g, ?_, ?_, ?_⟩
    · rw [gatherLoop, if_pos hB, if_pos ⟨Or.inl hh', Or.inl hw'⟩]
      exact hg
    · intro b hb
      rw [huntouched b (Nat.lt_succ_of_lt hb)]
      funext c a d
      simp [Nat.ne_of_lt hb]
    · intro j hj c a d ha hd
      match j with
      | 0 =>
        have hgi : g (i + 0) = _ := huntouched i (Nat.lt_succ_self i)
        rw [hgi]
        simp [hh', hw', ite_bcast ha, ite_bcast hd]
      | j' + 1 =>
        have hj' : j' < rest.length := by simpa using hj
        have : i + (j' + 1) = (i + 1) + j' := by omega
        rw [this]
        exact hvals j' hj' c a d ha hd

lemma sparse_gather_spec (x : Tensor4) (xsize : ℕ × ℕ × ℕ × ℕ)
    (abi : List (ℕ × ℕ × ℕ)) (bsize bcount boffset bstride : ℕ × ℕ)
    (hsq : bsize.1 = bsize.2)
    (hv : ∀ t ∈ abi, entryValid xsize bsize boffset bstride t) :
    ∃ g, sparse_gather x xsize abi bsize bcount boffset bstride =
        .ok ((abi.length, xsize.2.1, bsize.1, bsize.2), g) ∧
      (∀ j (hj : j < abi.length) c a d, a < bsize.1 → d < bsize.2 →
        g j c a d =
          x (abi.get ⟨j, hj⟩).1 c
            (rowCorner boffset bstride (abi.get ⟨j, hj⟩).2.1 + a)
            (colCorner boffset bstride (abi.get ⟨j, hj⟩).2.2 + d)) := by
  obtain ⟨g, hg, _, hvals⟩ :=
    gatherLoop_spec x xsize bsize boffset bstride abi 0 (fun _ _ _ _ => 0) hv
  refine ⟨g, ?_, ?_⟩
  · rw [sparse_gather, if_neg (by simp [hsq]), hg]
    rfl
  · intro j hj c a d ha hd
    have := hvals j hj c a d ha hd
    rwa [Nat.zero_add] at this

lemma scatterLoop_frame (g : Tensor4) (gsize xsize : ℕ × ℕ × ℕ × ℕ)
    (bsize boffset bstride : ℕ × ℕ) (do_add : Bool) :
    ∀ (l : List (ℕ × ℕ × ℕ)) (i : ℕ) (acc : Tensor4) (b c r s : ℕ),
    (∀ t ∈ l, ¬ inDestWindow xsize bsize boffset bstride t b r s) →
    (scatterLoop g gsize xsize bsize boffset bstride do_add l i acc).1 b c r s = acc b c r s := by
  intro l
  induction l with
  | nil => intro i acc b c r s _; rfl
  | cons t rest ih =>
    intro i acc b c r s h
    have hhd := h t (List.mem_cons_self t rest)
    have hrest : ∀ t' ∈ rest, ¬ inDestWindow xsize bsize boffset bstride t' b r s :=
      fun t' ht' => h t' (List.mem_cons_of_mem t ht')
    simp only [scatterLoop]
    split
    · split
      · split
        · rw [ih (i + 1) _ b c r s hrest]
          rw [if_neg]
          intro hguard
          obtain ⟨hb, _, h1, h2, h3, h4⟩ := hguard
          exact hhd ⟨hb, h1, by unfold inDestWindow clipLen at *; omega,
            h3, by unfold inDestWindow clipLen at *; omega⟩
        · rfl
      · rfl
    · rfl

lemma scatterLoop_overwrite (x g : Tensor4) (xsize gsize : ℕ × ℕ × ℕ × ℕ)
    (bsize boffset bstride : ℕ × ℕ)
    (hgC : gsize.2.1 = xsize.2.1) (hgh : gsize.2.2.1 = bsize.1) (hgw : gsize.2.2.2 = bsize.2) :
    ∀ (l : List (ℕ × ℕ × ℕ)) (i : ℕ) (acc : Tensor4),
    (∀ t ∈ l, entryValid xsize bsize boffset bstride t) →
    i + l.length ≤ gsize.1 →
    (∀ j (hj : j < l.length) c a d, a < bsize.1 → d < bsize.2 →
      g (i + j) c a d =
        x (l.get ⟨j, hj⟩).1 c
          (rowCorner boffset bstride (l.get ⟨j, hj⟩).2.1 + a)
          (colCorner boffset bstride (l.get ⟨j, hj⟩).2.2 + d)) →
    (∀ b c r s, acc b c r s = x b c r s) →
    (scatterLoop g gsize xsize bsize boffset bstride false l i acc).2 = none ∧
    ∀ b c r s,
      (scatterLoop g gsize xsize bsize boffset bstride false l i acc).1 b c r s = x b c r s := by
  intro l
  induction l with
  | nil =>
    intro i acc _ _ _ hacc
    exact ⟨rfl, hacc⟩
  | cons t rest ih =>
    intro i acc hv hlen halign hacc
    obtain ⟨hB, hH, hW⟩ := hv t (List.mem_cons_self t rest)
    have hh' : clipLen (rowCorner boffset bstride t.2.1) bsize.1 xsize.2.2.1 = bsize.1 :=
      clipLen_of_le hH
    have hw' : clipLen (colCorner boffset bstride t.2.2) bsize.2 xsize.2.2.2 = bsize.2 :=
      clipLen_of_le hW
    have hlen' : i < gsize.1 := by simp at hlen; omega
    simp only [scatterLoop, if_pos hB, if_pos hlen',
      if_pos (⟨Or.inl hgC, Or.inl (hgh.trans hh'.symm), Or.inl (hgw.trans hw'.symm)⟩ :
        (gsize.2.1 = xsize.2.1 ∨ gsize.2.1 = 1) ∧
        (gsize.2.2.1 = clipLen (rowCorner boffset bstride t.2.1) bsize.1 xsize.2.2.1 ∨
          gsize.2.2.1 = 1) ∧
        (gsize.2.2.2 = clipLen (colCorner boffset bstride t.2.2) bsize.2 xsize.2.2.2 ∨
          gsize.2.2.2 = 1))]
    apply ih (i + 1) _ (fun t' ht' => hv t' (List.mem_cons_of_mem t ht'))
      (by simp at hlen ⊢; omega)
    · intro j hj c a d ha hd
      have h1 : i + 1 + j = i + (j + 1) := by omega
      have hj1 : j + 1 < (t :: rest).length := by simpa using hj
      rw [h1, halign (j + 1) hj1 c a d ha hd]
      rfl
    · intro b c r s
      simp only [hh', hw', hgC, hgh, hgw, Bool.false_eq_true, if_false]
      by_cases hguard : b = t.1 ∧ c < xsize.2.1 ∧
          rowCorner boffset bstride t.2.1 ≤ r ∧
          r < rowCorner boffset bstride t.2.1 + bsize.1 ∧
          colCorner boffset bstride t.2.2 ≤ s ∧
          s < colCorner boffset bstride t.2.2 + bsize.2
      · obtain ⟨hb, hc, h1, h2, h3, h4⟩ := hguard
        rw [if_pos ⟨hb, hc, h1, h2, h3, h4⟩]
        have ha : r - rowCorner boffset bstride t.2.1 < bsize.1 := by omega
        have hd : s - colCorner boffset bstride t.2.2 < bsize.2 := by omega
        have h0 : (0 : ℕ) < (t :: rest).length := by simp
        have hval := halign 0 h0 c (r - rowCorner boffset bstride t.2.1)
          (s - colCorner boffset bstride t.2.2) ha hd
        rw [Nat.add_zero] at hval
        simp only [List.get] at hval
        rw [ite_bcast hc, ite_bcast ha, ite_bcast hd, hval,
          Nat.add_sub_cancel' h1, Nat.add_sub_cancel' h3, hb]
      · rw [if_neg hguard]
        exact hacc b c r s

lemma scatterLoop_add (x g : Tensor4) (xsize gsize : ℕ × ℕ × ℕ × ℕ)
    (bsize boffset bstride : ℕ × ℕ)
    (hgC : gsize.2.1 = xsize.2.1) (hgh : gsize.2.2.1 = bsize.1) (hgw : gsize.2.2.2 = bsize.2) :
    ∀ (l : List (ℕ × ℕ × ℕ)) (i : ℕ) (acc : Tensor4),
    (∀ t ∈ l, entryValid xsize bsize boffset bstride t) →
    i + l.length ≤ gsize.1 →
    (∀ j (hj : j < l.length) c a d, a < bsize.1 → d < bsize.2 →
      g (i + j) c a d =
        x (l.get ⟨j, hj⟩).1 c
          (rowCorner boffset bstride (l.get ⟨j, hj⟩).2.1 + a)
          (colCorner boffset bstride (l.get ⟨j, hj⟩).2.2 + d)) →
    (scatterLoop g gsize xsize bsize boffset bstride true l i acc).2 = none ∧
    ∀ b c r s, c < xsize.2.1 →
      (scatterLoop g gsize xsize bsize boffset bstride true l i acc).1 b c r s =
        acc b c r s + (coverCount l bsize boffset bstride b r s : ℚ) * x b c r s := by
  intro l
  induction l with
  | nil =>
    intro i acc _ _ _
    refine ⟨rfl, fun b c r s _ => ?_⟩
    simp [coverCount, scatterLoop]
  | cons t rest ih =>
    intro i acc hv hlen halign
    obtain ⟨hB, hH, hW⟩ := hv t (List.mem_cons_self t rest)
    have hh' : clipLen (rowCorner boffset bstride t.2.1) bsize.1 xsize.2.2.1 = bsize.1 :=
      clipLen_of_le hH
    have hw' : clipLen (colCorner boffset bstride t.2.2) bsize.2 xsize.2.2.2 = bsize.2 :=
      clipLen_of_le hW
    have hlen' : i < gsize.1 := by simp at hlen; omega
    simp only [scatterLoop, if_pos hB, if_pos hlen',
      if_pos (⟨Or.inl hgC, Or.inl (hgh.trans hh'.symm), Or.inl (hgw.trans hw'.symm)⟩ :
        (gsize.2.1 = xsize.2.1 ∨ gsize.2.1 = 1) ∧
        (gsize.2.2.1 = clipLen (rowCorner boffset bstride t.2.1) bsize.1 xsize.2.2.1 ∨
          gsize.2.2.1 = 1) ∧
        (gsize.2.2.2 = clipLen (colCorner boffset bstride t.2.2) bsize.2 xsize.2.2.2 ∨
          gsize.2.2.2 = 1))]
    obtain ⟨hnone, hval⟩ := ih (i + 1) _
      (fun t' ht' => hv t' (List.mem_cons_of_mem t ht'))
      (by simp at hlen ⊢; omega)
      (fun j hj c a d ha hd => by
        have h1 : i + 1 + j = i + (j + 1) := by omega
        have hj1 : j + 1 < (t :: rest).length := by simpa using hj
        rw [h1, halign (j + 1) hj1 c a d ha hd]
        rfl)
    refine ⟨hnone, fun b c r s hc => ?_⟩
    rw [hval b c r s hc]
    have hcov : (coverCount (t :: rest) bsize boffset bstride b r s : ℚ) =
        (coverCount rest bsize boffset bstride b r s : ℚ) +
          (if t.1 = b ∧ rowCorner boffset bstride t.2.1 ≤ r ∧
              r < rowCorner boffset bstride t.2.1 + bsize.1 ∧
              colCorner boffset bstride t.2.2 ≤ s ∧
              s < colCorner boffset bstride t.2.2 + bsize.2 then (1 : ℚ) else 0) := by
      simp only [coverCount, List.countP_cons, decide_eq_true_eq]
      push_cast [apply_ite (fun n : ℕ => (n : ℚ))]
      try ring
    simp only [if_true, hh', hw', hgC, hgh, hgw]
    rw [hcov]
    by_cases hP : b = t.1 ∧ rowCorner boffset bstride t.2.1 ≤ r ∧
        r < rowCorner boffset bstride t.2.1 + bsize.1 ∧
        colCorner boffset bstride t.2.2 ≤ s ∧
        s < colCorner boffset bstride t.2.2 + bsize.2
    · obtain ⟨hb, h1, h2, h3, h4⟩ := hP
      have ha : r - rowCorner boffset bstride t.2.1 < bsize.1 := by omega
      have hd : s - colCorner boffset bstride t.2.2 < bsize.2 := by omega
      have h0 : (0 : ℕ) < (t :: rest).length := by simp
      have hvv := halign 0 h0 c (r - rowCorner boffset bstride t.2.1)
        (s - colCorner boffset bstride t.2.2) ha hd
      rw [Nat.add_zero] at hvv
      simp only [List.get] at hvv
      rw [ite_bcast hc, ite_bcast ha, ite_bcast hd, hvv,
        Nat.add_sub_cancel' h1, Nat.add_sub_cancel' h3]
      have hguard : b = t.1 ∧ c < xsize.2.1 ∧
          rowCorner boffset bstride t.2.1 ≤ r ∧
          r < rowCorner boffset bstride t.2.1 + bsize.1 ∧
          colCorner boffset bstride t.2.2 ≤ s ∧
          s < colCorner boffset bstride t.2.2 + bsize.2 := ⟨hb, hc, h1, h2, h3, h4⟩
      rw [if_pos hguard]
      have hq : t.1 = b ∧ rowCorner boffset bstride t.2.1 ≤ r ∧
          r < rowCorner boffset bstride t.2.1 + bsize.1 ∧
          colCorner boffset bstride t.2.2 ≤ s ∧
          s < colCorner boffset bstride t.2.2 + bsize.2 := ⟨hb.symm, h1, h2, h3, h4⟩
      rw [if_pos hq, hb]
      ring
    · have hng : ¬(b = t.1 ∧ c < xsize.2.1 ∧
          rowCorner boffset bstride t.2.1 ≤ r ∧
          r < rowCorner boffset bstride t.2.1 + bsize.1 ∧
          colCorner boffset bstride t.2.2 ≤ s ∧
          s < colCorner boffset bstride t.2.2 + bsize.2) := fun hg_ => hP ⟨hg_.1, hg_.2.2⟩
      have hnq : ¬(t.1 = b ∧ rowCorner boffset bstride t.2.1 ≤ r ∧
          r < rowCorner boffset bstride t.2.1 + bsize.1 ∧
          colCorner boffset bstride t.2.2 ≤ s ∧
          s < colCorner boffset bstride t.2.2 + bsize.2) := fun hq_ => hP ⟨hq_.1.symm, hq_.2⟩
      rw [if_neg hng, if_neg hnq]
      ring

lemma scatterLoop_none_iff (g : Tensor4) (xsize gsize : ℕ × ℕ × ℕ × ℕ)
    (bsize boffset bstride : ℕ × ℕ) (do_add : Bool)
    (hgC : gsize.2.1 = xsize.2.1) (hgh : gsize.2.2.1 = bsize.1) (hgw : gsize.2.2.2 = bsize.2) :
    ∀ (l : List (ℕ × ℕ × ℕ)) (i : ℕ) (acc : Tensor4),
    (∀ t ∈ l, entryValid xsize bsize boffset bstride t) →
    i ≤ gsize.1 →
    ((scatterLoop g gsize xsize bsize boffset bstride do_add l i acc).2 = none ↔
      i + l.length ≤ gsize.1) := by
  intro l
  induction l with
  | nil =>
    intro i acc _ hi
    simpa [scatterLoop] using hi
  | cons t rest ih =>
    intro i acc hv hi
    obtain ⟨hB, hH, hW⟩ := hv t (List.mem_cons_self t rest)
    have hh' : clipLen (rowCorner boffset bstride t.2.1) bsize.1 xsize.2.2.1 = bsize.1 :=
      clipLen_of_le hH
    have hw' : clipLen (colCorner boffset bstride t.2.2) bsize.2 xsize.2.2.2 = bsize.2 :=
      clipLen_of_le hW
    simp only [scatterLoop, if_pos hB]
    by_cases hlt : i < gsize.1
    · rw [if_pos hlt,
        if_pos (⟨Or.inl hgC, Or.inl (hgh.trans hh'.symm), Or.inl (hgw.trans hw'.symm)⟩ :
          (gsize.2.1 = xsize.2.1 ∨ gsize.2.1 = 1) ∧
          (gsize.2.2.1 = clipLen (rowCorner boffset bstride t.2.1) bsize.1 xsize.2.2.1 ∨
            gsize.2.2.1 = 1) ∧
          (gsize.2.2.2 = clipLen (colCorner boffset bstride t.2.2) bsize.2 xsize.2.2.2 ∨
            gsize.2.2.2 = 1)),
        ih (i + 1) _ (fun t' ht' => hv t' (List.mem_cons_of_mem t ht')) hlt]
      simp only [List.length_cons]
      omega
    · rw [if_neg hlt]
      simp only [List.length_cons]
      simp
      omega

lemma mem_reduceMaskCore (mask : Tensor3) (msize : ℕ × ℕ × ℕ)
    (bsize bcount boffset bstride : ℕ × ℕ) (thresh : ℚ) (n h0 w0 : ℕ) :
    (n, h0, w0) ∈ reduceMaskCore mask msize bsize bcount boffset bstride thresh ↔
      n < msize.1 ∧ h0 < bcount.1 ∧ w0 < bcount.2 ∧
        blockMean mask msize bsize n (rowCorner boffset bstride h0)
          (colCorner boffset bstride w0) > thresh := by
  unfold reduceMaskCore
  simp only [List.mem_flatMap, List.mem_filterMap, List.mem_range]
  constructor
  · rintro ⟨a, ha, b, hb, c, hc, heq⟩
    split at heq
    · rename_i hmean
      simp only [Option.some.injEq, Prod.mk.injEq] at heq
      obtain ⟨rfl, rfl, rfl⟩ := heq
      exact ⟨ha, hb, hc, hmean⟩
    · exact absurd heq (by simp)
  · rintro ⟨ha, hb, hc, hmean⟩
    exact ⟨n, ha, h0, hb, w0, hc, by rw [if_pos hmean]⟩

lemma reduceMaskCore_pairwise (mask : Tensor3) (msize : ℕ × ℕ × ℕ)
    (bsize bcount boffset bstride : ℕ × ℕ) (thresh : ℚ) :
    (reduceMaskCore mask msize bsize bcount boffset bstride thresh).Pairwise lex3 := by
  unfold reduceMaskCore
  rw [List.pairwise_flatMap]
  refine ⟨fun n _ => ?_, ?_⟩
  · rw [List.pairwise_flatMap]
    refine ⟨fun h0 _ => ?_, ?_⟩
    · rw [List.pairwise_filterMap]
      refine List.Pairwise.imp ?_ (List.pairwise_lt_range _)
      intro w0 w0' hlt b hb b' hb'
      split at hb
      · simp only [Option.mem_def, Option.some.injEq] at hb
        subst hb
        split at hb'
        · simp only [Option.mem_def, Option.some.injEq] at hb'
          subst hb'
          exact Or.inr ⟨rfl, Or.inr ⟨rfl, hlt⟩⟩
        · exact absurd hb' (by simp)
      · exact absurd hb (by simp)
    · refine List.Pairwise.imp ?_ (List.pairwise_lt_range _)
      intro h0 h0' hlt b hb b' hb'
      simp only [List.mem_filterMap, List.mem_range] at hb hb'
      obtain ⟨w0, _, hw⟩ := hb
      obtain ⟨w0', _, hw'⟩ := hb'
      split at hw
      · simp only [Option.some.injEq] at hw
        subst hw
        split at hw'
        · simp only [Option.some.injEq] at hw'
          subst hw'
          exact Or.inr ⟨rfl, Or.inl hlt⟩
        · exact absurd hw' (by simp)
      · exact absurd hw (by simp)
  · refine List.Pairwise.imp ?_ (List.pairwise_lt_range _)
    intro n n' hlt b hb b' hb'
    simp only [List.mem_flatMap, List.mem_filterMap, List.mem_range] at hb hb'
    obtain ⟨h0, _, w0, _, hw⟩ := hb
    obtain ⟨h0', _, w0', _, hw'⟩ := hb'
    split at hw
    · simp only [Option.some.injEq] at hw
      subst hw
      split at hw'
      · simp only [Option.some.injEq] at hw'
        subst hw'
        exact Or.inl hlt
      · exact absurd hw' (by simp)
    · exact absurd hw (by simp)


/-- Claim C2: for every mask and grid configuration passing `reduce_mask`'s
preconditions, the returned index list is sorted strictly in batch-major, then
grid-row-major, then grid-column-major order, and every emitted triple lies
within the batch count and the grid counts. -/
theorem claim_C2_sorted_and_bounded (maskRank : ℕ) (mask : Tensor3) (msize : ℕ × ℕ × ℕ)
    (bsize bcount boffset bstride : ℕ × ℕ) (thresh : ℚ)
    (h3 : maskRank = 3) (hsq : bsize.1 = bsize.2)
    (hdiv1 : msize.2.1 % bcount.1 = 0) (hdiv2 : msize.2.2 % bcount.2 = 0) :
    ∃ l, reduce_mask maskRank mask msize bsize bcount boffset bstride thresh = .ok l ∧
      l.Pairwise lex3 ∧ ∀ t ∈ l, t.1 < msize.1 ∧ t.2.1 < bcount.1 ∧ t.2.2 < bcount.2 := by
  refine ⟨reduceMaskCore mask msize bsize bcount boffset bstride thresh, ?_,
    reduceMaskCore_pairwise mask msize bsize bcount boffset bstride thresh, ?_⟩
  · unfold reduce_mask
    rw [if_neg (by simp [h3]), if_neg (by simp [hsq]), if_neg (by simp [hdiv1, hdiv2])]
  · rintro ⟨n, h0, w0⟩ ht
    rw [mem_reduceMaskCore] at ht
    exact ⟨ht.1, ht.2.1, ht.2.2.1⟩

/-- Witness for claim C2 on the spec's concrete scenario: a 1×4×4 mask with
2×2 blocks on a 2×2 grid, offset 0 and stride 2. -/
theorem claim_C2_witness :
    ∃ l, reduce_mask 3 (fun _ _ _ => 1) (1, 4, 4) (2, 2) (2, 2) (0, 0) (2, 2) (1 / 2) =
        .ok l ∧
      l.Pairwise lex3 ∧
        ∀ t ∈ l, t.1 < ((1 : ℕ), (4 : ℕ), (4 : ℕ)).1 ∧
          t.2.1 < ((2 : ℕ), (2 : ℕ)).1 ∧ t.2.2 < ((2 : ℕ), (2 : ℕ)).2 :=
  claim_C2_sorted_and_bounded 3 (fun _ _ _ => 1) (1, 4, 4) (2, 2) (2, 2) (0, 0) (2, 2)
    (1 / 2) rfl rfl (by decide) (by decide)

/-- Claim C3: for every grid cell `(n, h0, w0)` examined by `reduce_mask`
(with valid configuration and a nonempty clipped window), the cell's triple
appears in the returned index list if and only if the arithmetic mean of the
clipped mask sub-region is strictly greater than the threshold; a mean equal
to the threshold is not selected. -/
theorem claim_C3_threshold_strict (maskRank : ℕ) (mask : Tensor3) (msize : ℕ × ℕ × ℕ)
    (bsize bcount boffset bstride : ℕ × ℕ) (thresh : ℚ) (n h0 w0 : ℕ)
    (h3 : maskRank = 3) (hsq : bsize.1 = bsize.2)
    (hdiv1 : msize.2.1 % bcount.1 = 0) (hdiv2 : msize.2.2 % bcount.2 = 0)
    (hn : n < msize.1) (hh : h0 < bcount.1) (hw : w0 < bcount.2)
    (hne1 : rowCorner boffset bstride h0 < msize.2.1)
    (hne2 : colCorner boffset bstride w0 < msize.2.2) :
    ∃ l, reduce_mask maskRank mask msize bsize bcount boffset bstride thresh = .ok l ∧
      ((n, h0, w0) ∈ l ↔
        blockMean mask msize bsize n (rowCorner boffset bstride h0)
          (colCorner boffset bstride w0) > thresh) := by
  refine ⟨reduceMaskCore mask msize bsize bcount boffset bstride thresh, ?_, ?_⟩
  · unfold reduce_mask
    rw [if_neg (by simp [h3]), if_neg (by simp [hsq]), if_neg (by simp [hdiv1, hdiv2])]
  · rw [mem_reduceMaskCore]
    constructor
    · exact fun h => h.2.2.2
    · exact fun h => ⟨hn, hh, hw, h⟩

/-- Witness for claim C3 at the spec's concrete scenario, cell `(0, 0, 0)`. -/
theorem claim_C3_witness :
    ∃ l, reduce_mask 3 (fun _ _ _ => 1) (1, 4, 4) (2, 2) (2, 2) (0, 0) (2, 2) (1 / 2) =
        .ok l ∧
      (((0 : ℕ), (0 : ℕ), (0 : ℕ)) ∈ l ↔
        blockMean (fun _ _ _ => 1) (1, 4, 4) (2, 2) 0 (rowCorner (0, 0) (2, 2) 0)
          (colCorner (0, 0) (2, 2) 0) > 1 / 2) :=
  claim_C3_threshold_strict 3 (fun _ _ _ => 1) (1, 4, 4) (2, 2) (2, 2) (0, 0) (2, 2)
    (1 / 2) 0 0 0 rfl rfl (by decide) (by decide) (by decide) (by decide) (by decide)
    (by decide) (by decide)

/-- Claim C6: `reduce_mask` succeeds exactly when the mask has rank 3, the
block is square and the grid count divides the mask's spatial extent on both
axes; when some precondition fails the result is the same configuration error
for every mask tensor, i.e. no mask data is examined. -/
theorem claim_C6_precondition_checks (maskRank : ℕ) (mask : Tensor3) (msize : ℕ × ℕ × ℕ)
    (bsize bcount boffset bstride : ℕ × ℕ) (thresh : ℚ) :
    ((∃ l, reduce_mask maskRank mask msize bsize bcount boffset bstride thresh = .ok l) ↔
      (maskRank = 3 ∧ bsize.1 = bsize.2 ∧
        msize.2.1 % bcount.1 = 0 ∧ msize.2.2 % bcount.2 = 0)) ∧
    ∀ mask' : Tensor3,
      ¬ (maskRank = 3 ∧ bsize.1 = bsize.2 ∧
          msize.2.1 % bcount.1 = 0 ∧ msize.2.2 % bcount.2 = 0) →
      reduce_mask maskRank mask msize bsize bcount boffset bstride thresh =
        reduce_mask maskRank mask' msize bsize bcount boffset bstride thresh := by
  constructor
  · unfold reduce_mask
    by_cases h3 : maskRank = 3
    · by_cases hsq : bsize.1 = bsize.2
      · by_cases hdiv : msize.2.1 % bcount.1 = 0 ∧ msize.2.2 % bcount.2 = 0
        · rw [if_neg (by simp [h3]), if_neg (by simp [hsq]), if_neg (by simp [hdiv])]
          simp [h3, hsq, hdiv]
        · rw [if_neg (by simp [h3]), if_neg (by simp [hsq]), if_pos hdiv]
          constructor
          · rintro ⟨l, hl⟩; exact absurd hl (by simp)
          · rintro ⟨-, -, hd1, hd2⟩; exact absurd ⟨hd1, hd2⟩ hdiv
      · rw [if_neg (by simp [h3]), if_pos (by simp [hsq])]
        constructor
        · rintro ⟨l, hl⟩; exact absurd hl (by simp)
        · rintro ⟨-, hs, -⟩; exact absurd hs hsq
    · rw [if_pos (by simp [h3])]
      constructor
      · rintro ⟨l, hl⟩; exact absurd hl (by simp)
      · rintro ⟨hr, -⟩; exact absurd hr h3
  · intro mask' hbad
    unfold reduce_mask
    by_cases h3 : maskRank = 3
    · by_cases hsq : bsize.1 = bsize.2
      · by_cases hdiv : msize.2.1 % bcount.1 = 0 ∧ msize.2.2 % bcount.2 = 0
        · exact absurd ⟨h3, hsq, hdiv.1, hdiv.2⟩ hbad
        · rw [if_neg (by simp [h3]), if_neg (by simp [hsq]), if_pos hdiv,
            if_neg (by simp [h3]), if_neg (by simp [hsq]), if_pos hdiv]
      · rw [if_neg (by simp [h3]), if_pos (by simp [hsq]),
          if_neg (by simp [h3]), if_pos (by simp [hsq])]
    · rw [if_pos (by simp [h3]), if_pos (by simp [h3])]

/-- Witness for claim C6 at a failing configuration (non-square 2×3 block):
no success, and the error is independent of the mask's contents. -/
theorem claim_C6_witness :
    ((∃ l, reduce_mask 3 (fun _ _ _ => 1) (1, 4, 4) (2, 3) (2, 2) (0, 0) (2, 2) (1 / 2) =
        .ok l) ↔
      ((3 : ℕ) = 3 ∧ ((2 : ℕ), (3 : ℕ)).1 = ((2 : ℕ), (3 : ℕ)).2 ∧
        (4 : ℕ) % 2 = 0 ∧ (4 : ℕ) % 2 = 0)) ∧
    reduce_mask 3 (fun _ _ _ => 1) (1, 4, 4) (2, 3) (2, 2) (0, 0) (2, 2) (1 / 2) =
      reduce_mask 3 (fun _ _ _ => 0) (1, 4, 4) (2, 3) (2, 2) (0, 0) (2, 2) (1 / 2) :=
  ⟨(claim_C6_precondition_checks 3 (fun _ _ _ => 1) (1, 4, 4) (2, 3) (2, 2) (0, 0) (2, 2)
      (1 / 2)).1,
    (claim_C6_precondition_checks 3 (fun _ _ _ => 1) (1, 4, 4) (2, 3) (2, 2) (0, 0) (2, 2)
      (1 / 2)).2 (fun _ _ _ => 0) (by decide)⟩

/-- Claim C9: `reduce_mask` is a pure, deterministic function of its inputs:
two calls on equal inputs return equal index lists (in particular in the same
order).  The mask itself is never mutated, which the functional embedding
makes structural. -/
theorem claim_C9_deterministic (rank1 rank2 : ℕ) (mask1 mask2 : Tensor3)
    (msize1 msize2 : ℕ × ℕ × ℕ) (bsize1 bsize2 bcount1 bcount2 : ℕ × ℕ)
    (boffset1 boffset2 bstride1 bstride2 : ℕ × ℕ) (thresh1 thresh2 : ℚ)
    (h1 : rank1 = rank2) (h2 : mask1 = mask2) (h3 : msize1 = msize2)
    (h4 : bsize1 = bsize2) (h5 : bcount1 = bcount2) (h6 : boffset1 = boffset2)
    (h7 : bstride1 = bstride2) (h8 : thresh1 = thresh2) :
    reduce_mask rank1 mask1 msize1 bsize1 bcount1 boffset1 bstride1 thresh1 =
      reduce_mask rank2 mask2 msize2 bsize2 bcount2 boffset2 bstride2 thresh2 := by
  subst h1 h2 h3 h4 h5 h6 h7 h8
  rfl

/-- Witness for claim C9: two identical calls on the spec's concrete scenario
agree. -/
theorem claim_C9_witness :
    reduce_mask 3 (fun _ _ _ => 1) (1, 4, 4) (2, 2) (2, 2) (0, 0) (2, 2) (1 / 2) =
      reduce_mask 3 (fun _ _ _ => 1) (1, 4, 4) (2, 2) (2, 2) (0, 0) (2, 2) (1 / 2) :=
  claim_C9_deterministic 3 3 (fun _ _ _ => 1) (fun _ _ _ => 1) (1, 4, 4) (1, 4, 4)
    (2, 2) (2, 2) (2, 2) (2, 2) (0, 0) (0, 0) (2, 2) (2, 2) (1 / 2) (1 / 2)
    rfl rfl rfl rfl rfl rfl rfl rfl

/-- Claim C8: whenever `sparse_gather` returns a gathered batch, the batch's
shape is exactly `(len(activeBlockIndices), channel count, block height,
block width)`, matching the `torch.empty` allocation. -/
theorem claim_C8_gather_shape (x : Tensor4) (xsize : ℕ × ℕ × ℕ × ℕ)
    (abi : List (ℕ × ℕ × ℕ)) (bsize bcount boffset bstride : ℕ × ℕ)
    (p : (ℕ × ℕ × ℕ × ℕ) × Tensor4)
    (h : sparse_gather x xsize abi bsize bcount boffset bstride = .ok p) :
    p.1 = (abi.length, xsize.2.1, bsize.1, bsize.2) := by
  unfold sparse_gather at h
  split at h
  · exact absurd h (by simp)
  · cases hE : gatherLoop x xsize bsize boffset bstride abi 0 fun _ _ _ _ => 0 with
    | error e => rw [hE] at h; exact absurd h (by simp [Except.map])
    | ok g =>
      rw [hE] at h
      simp only [Except.map, Except.ok.injEq] at h
      rw [← h]

/-- Witness for claim C8: gathering with an empty index list from a 1×1×2×2
tensor returns the batch metadata `(0, 1, 1, 1)`. -/
theorem claim_C8_witness :
    ((((0 : ℕ), (1 : ℕ), (1 : ℕ), (1 : ℕ)), fun _ _ _ _ => (0 : ℚ)) :
        (ℕ × ℕ × ℕ × ℕ) × Tensor4).1 =
      (([] : List (ℕ × ℕ × ℕ)).length, ((1 : ℕ), (1 : ℕ), (2 : ℕ), (2 : ℕ)).2.1,
        ((1 : ℕ), (1 : ℕ)).1, ((1 : ℕ), (1 : ℕ)).2) :=
  claim_C8_gather_shape (fun _ _ _ _ => 0) (1, 1, 2, 2) [] (1, 1) (1, 1) (0, 0) (1, 1)
    (((0, 1, 1, 1), fun _ _ _ _ => 0) : (ℕ × ℕ × ℕ × ℕ) × Tensor4) rfl

/-- Claim C5 evaluation: on a 1×1×4×4 tensor, gathering the single block
`(0, 1, 0)` with block size 3, offset 0 and stride 2 clips the extraction
window to 2 rows; the copy into the full 3×3 output slot then raises a
shape-mismatch RuntimeError instead of filling only the valid portion.  The
spec's boundary-block contract (clip, partial fill, no exception) is the
documented intent, so this is a bug in the code's copy step. -/
theorem claim_C5_boundary_block_raises :
    sparse_gather (fun _ _ _ _ => 0) (1, 1, 4, 4) [(0, 1, 0)] (3, 3) (2, 2) (0, 0) (2, 2) =
      .error "The expanded size of the tensor must match the existing size" := by
  rfl

/-- Claim C10: `sparse_scatter` never changes an element of the destination
tensor whose position lies outside every index-list entry's clipped
destination window, in any mode, even when the call raises part-way; with an
empty index list nothing at all changes. -/
theorem claim_C10_scatter_frame (x : Tensor4) (xsize : ℕ × ℕ × ℕ × ℕ)
    (gathered : Tensor4) (gsize : ℕ × ℕ × ℕ × ℕ) (abi : List (ℕ × ℕ × ℕ))
    (bsize bcount boffset bstride : ℕ × ℕ) (do_add : Bool) (b c r s : ℕ)
    (h : ∀ t ∈ abi, ¬ inDestWindow xsize bsize boffset bstride t b r s) :
    (sparse_scatter x xsize gathered gsize abi bsize bcount boffset bstride do_add).1
      b c r s = x b c r s := by
  unfold sparse_scatter
  split
  · rfl
  · exact scatterLoop_frame gathered gsize xsize bsize boffset bstride do_add abi 0 x
      b c r s h

/-- Witness for claim C10: scattering one 1×1 block at grid cell `(0, 0, 0)`
leaves the element at position `(0, 0, 1, 1)` unchanged. -/
theorem claim_C10_witness :
    (sparse_scatter (fun _ _ _ _ => 0) (1, 1, 2, 2) (fun _ _ _ _ => 5) (1, 1, 1, 1)
        [(0, 0, 0)] (1, 1) (2, 2) (0, 0) (1, 1) true).1 0 0 1 1 =
      (fun _ _ _ _ => (0 : ℚ)) 0 0 1 1 :=
  claim_C10_scatter_frame (fun _ _ _ _ => 0) (1, 1, 2, 2) (fun _ _ _ _ => 5) (1, 1, 1, 1)
    [(0, 0, 0)] (1, 1) (2, 2) (0, 0) (1, 1) true 0 0 1 1 (by decide)

/-- Counterexample to claim C4: a scatter call whose index list (length 1)
disagrees with the gathered batch's first dimension (length 2) raises no
error at all and still writes block data into the tensor, contradicting
"fail immediately ... before or without performing any write". -/
theorem claim_C4_counterexample :
    (([(0, 0, 0)] : List (ℕ × ℕ × ℕ)).length ≠
        (((2 : ℕ), (1 : ℕ), (1 : ℕ), (1 : ℕ)) : ℕ × ℕ × ℕ × ℕ).1) ∧
    (sparse_scatter (fun _ _ _ _ => 0) (1, 1, 2, 2) (fun _ _ _ _ => 5) (2, 1, 1, 1)
        [(0, 0, 0)] (1, 1) (2, 2) (0, 0) (1, 1) false).2 = none ∧
    (sparse_scatter (fun _ _ _ _ => 0) (1, 1, 2, 2) (fun _ _ _ _ => 5) (2, 1, 1, 1)
        [(0, 0, 0)] (1, 1) (2, 2) (0, 0) (1, 1) false).1 0 0 0 0 ≠
      (fun _ _ _ _ => (0 : ℚ)) 0 0 0 0 := by
  refine ⟨by decide, rfl, ?_⟩
  intro h
  have h5 : (5 : ℚ) = 0 := h
  norm_num at h5

/-- Claim C4 as amended: neither operation validates the index-list length
against the batch length up front.  `sparse_gather` cannot mismatch (it sizes
its output from the index list).  `sparse_scatter`, on geometrically valid
entries, completes without error exactly when the index list is no longer
than the gathered batch's first dimension: a shorter list silently ignores the
excess batch entries, and a longer list hits an index-out-of-range error only
on reaching the batch's end, after the earlier blocks have been written. -/
theorem claim_C4_amended_no_upfront_check (x : Tensor4) (xsize : ℕ × ℕ × ℕ × ℕ)
    (gathered : Tensor4) (gsize : ℕ × ℕ × ℕ × ℕ) (abi : List (ℕ × ℕ × ℕ))
    (bsize bcount boffset bstride : ℕ × ℕ) (do_add : Bool)
    (hsq : bsize.1 = bsize.2)
    (hgC : gsize.2.1 = xsize.2.1) (hgh : gsize.2.2.1 = bsize.1) (hgw : gsize.2.2.2 = bsize.2)
    (hv : ∀ t ∈ abi, entryValid xsize bsize boffset bstride t) :
    (sparse_scatter x xsize gathered gsize abi bsize bcount boffset bstride do_add).2 =
        none ↔
      abi.length ≤ gsize.1 := by
  unfold sparse_scatter
  rw [if_neg (by simp [hsq])]
  have h := scatterLoop_none_iff gathered xsize gsize bsize boffset bstride do_add
    hgC hgh hgw abi 0 x hv (Nat.zero_le _)
  simpa using h

/-- Witness for the amended claim C4: with one valid 1×1 block and a gathered
batch of matching length 1, the scatter completes without error. -/
theorem claim_C4_amended_witness :
    (sparse_scatter (fun _ _ _ _ => 0) (1, 1, 2, 2) (fun _ _ _ _ => 5) (1, 1, 1, 1)
        [(0, 0, 0)] (1, 1) (2, 2) (0, 0) (1, 1) false).2 = none ↔
      ([(0, 0, 0)] : List (ℕ × ℕ × ℕ)).length ≤
        (((1 : ℕ), (1 : ℕ), (1 : ℕ), (1 : ℕ)) : ℕ × ℕ × ℕ × ℕ).1 :=
  claim_C4_amended_no_upfront_check (fun _ _ _ _ => 0) (1, 1, 2, 2) (fun _ _ _ _ => 5)
    (1, 1, 1, 1) [(0, 0, 0)] (1, 1) (2, 2) (0, 0) (1, 1) false rfl rfl rfl rfl (by decide)

instance (bsize boffset bstride : ℕ × ℕ) (p q : ℕ × ℕ × ℕ) :
    Decidable (destDisjoint bsize boffset bstride p q) := by
  unfold destDisjoint; infer_instance

/-- Claim C1: for a feature tensor, a square block configuration and an index
list whose destination regions are in range, fully inside the spatial bounds
and pairwise non-overlapping, scattering the gathered batch back in overwrite
mode completes without error and leaves every element of the tensor
unchanged. -/
theorem claim_C1_overwrite_roundtrip (x : Tensor4) (xsize : ℕ × ℕ × ℕ × ℕ)
    (abi : List (ℕ × ℕ × ℕ)) (bsize bcount boffset bstride : ℕ × ℕ)
    (hsq : bsize.1 = bsize.2)
    (hv : ∀ t ∈ abi, entryValid xsize bsize boffset bstride t)
    (hdisj : abi.Pairwise (destDisjoint bsize boffset bstride)) :
    ∃ g, sparse_gather x xsize abi bsize bcount boffset bstride =
        .ok ((abi.length, xsize.2.1, bsize.1, bsize.2), g) ∧
      (sparse_scatter x xsize g (abi.length, xsize.2.1, bsize.1, bsize.2) abi bsize
          bcount boffset bstride false).2 = none ∧
      ∀ b c r s,
        (sparse_scatter x xsize g (abi.length, xsize.2.1, bsize.1, bsize.2) abi bsize
          bcount boffset bstride false).1 b c r s = x b c r s := by
  obtain ⟨g, hok, hvals⟩ := sparse_gather_spec x xsize abi bsize bcount boffset bstride hsq hv
  refine ⟨g, hok, ?_⟩
  unfold sparse_scatter
  rw [if_neg (by simp [hsq])]
  exact scatterLoop_overwrite x g xsize (abi.length, xsize.2.1, bsize.1, bsize.2) bsize
    boffset bstride rfl rfl rfl abi 0 x hv (by simp)
    (fun j hj c a d ha hd => by rw [Nat.zero_add]; exact hvals j hj c a d ha hd)
    (fun _ _ _ _ => rfl)

/-- Witness for claim C1: two disjoint 2×2 blocks of a 1×1×4×4 tensor. -/
theorem claim_C1_witness :
    ∃ g, sparse_gather (fun _ _ r s => (10 * r + s : ℚ)) (1, 1, 4, 4)
        [(0, 0, 0), (0, 1, 1)] (2, 2) (2, 2) (0, 0) (2, 2) =
        .ok ((([(0, 0, 0), (0, 1, 1)] : List (ℕ × ℕ × ℕ)).length,
          ((1 : ℕ), (1 : ℕ), (4 : ℕ), (4 : ℕ)).2.1, ((2 : ℕ), (2 : ℕ)).1,
          ((2 : ℕ), (2 : ℕ)).2), g) ∧
      (sparse_scatter (fun _ _ r s => (10 * r + s : ℚ)) (1, 1, 4, 4) g
          (([(0, 0, 0), (0, 1, 1)] : List (ℕ × ℕ × ℕ)).length,
            ((1 : ℕ), (1 : ℕ), (4 : ℕ), (4 : ℕ)).2.1, ((2 : ℕ), (2 : ℕ)).1,
            ((2 : ℕ), (2 : ℕ)).2) [(0, 0, 0), (0, 1, 1)] (2, 2) (2, 2) (0, 0) (2, 2)
          false).2 = none ∧
      ∀ b c r s,
        (sparse_scatter (fun _ _ r s => (10 * r + s : ℚ)) (1, 1, 4, 4) g
          (([(0, 0, 0), (0, 1, 1)] : List (ℕ × ℕ × ℕ)).length,
            ((1 : ℕ), (1 : ℕ), (4 : ℕ), (4 : ℕ)).2.1, ((2 : ℕ), (2 : ℕ)).1,
            ((2 : ℕ), (2 : ℕ)).2) [(0, 0, 0), (0, 1, 1)] (2, 2) (2, 2) (0, 0) (2, 2)
          false).1 b c r s = (fun _ _ r s => (10 * r + s : ℚ)) b c r s :=
  claim_C1_overwrite_roundtrip (fun _ _ r s => (10 * r + s : ℚ)) (1, 1, 4, 4)
    [(0, 0, 0), (0, 1, 1)] (2, 2) (2, 2) (0, 0) (2, 2) rfl (by decide) (by decide)

/-- Claim C7: with in-range, unclipped destination regions, scattering the
gathered batch of `x` in add mode onto an all-zero tensor of the same shape
completes without error and produces, at each in-shape position, the sum of
the contributions of every block covering it — i.e. `x` on singly-covered
positions, multiples of `x` where regions overlap, and zero outside every
destination region. -/
theorem claim_C7_additive_roundtrip (x : Tensor4) (xsize : ℕ × ℕ × ℕ × ℕ)
    (abi : List (ℕ × ℕ × ℕ)) (bsize bcount boffset bstride : ℕ × ℕ)
    (hsq : bsize.1 = bsize.2)
    (hv : ∀ t ∈ abi, entryValid xsize bsize boffset bstride t) :
    ∃ g, sparse_gather x xsize abi bsize bcount boffset bstride =
        .ok ((abi.length, xsize.2.1, bsize.1, bsize.2), g) ∧
      (sparse_scatter zeros4 xsize g (abi.length, xsize.2.1, bsize.1, bsize.2) abi bsize
          bcount boffset bstride true).2 = none ∧
      ∀ b c r s, c < xsize.2.1 →
        (sparse_scatter zeros4 xsize g (abi.length, xsize.2.1, bsize.1, bsize.2) abi bsize
          bcount boffset bstride true).1 b c r s =
          (coverCount abi bsize boffset bstride b r s : ℚ) * x b c r s := by
  obtain ⟨g, hok, hvals⟩ := sparse_gather_spec x xsize abi bsize bcount boffset bstride hsq hv
  refine ⟨g, hok, ?_⟩
  unfold sparse_scatter
  rw [if_neg (by simp [hsq])]
  have h := scatterLoop_add x g xsize (abi.length, xsize.2.1, bsize.1, bsize.2) bsize
    boffset bstride rfl rfl rfl abi 0 zeros4 hv (by simp)
    (fun j hj c a d ha hd => by rw [Nat.zero_add]; exact hvals j hj c a d ha hd)
  refine ⟨h.1, fun b c r s hc => ?_⟩
  rw [h.2 b c r s hc]
  simp [zeros4]

/-- Witness for claim C7: two overlapping 2×2 blocks (stride 1) of a 1×1×4×4
tensor, scattered additively onto zeros. -/
theorem claim_C7_witness :
    ∃ g, sparse_gather (fun _ _ r s => (10 * r + s : ℚ)) (1, 1, 4, 4)
        [(0, 0, 0), (0, 0, 1)] (2, 2) (2, 2) (0, 0) (1, 1) =
        .ok ((([(0, 0, 0), (0, 0, 1)] : List (ℕ × ℕ × ℕ)).length,
          ((1 : ℕ), (1 : ℕ), (4 : ℕ), (4 : ℕ)).2.1, ((2 : ℕ), (2 : ℕ)).1,
          ((2 : ℕ), (2 : ℕ)).2), g) ∧
      (sparse_scatter zeros4 (1, 1, 4, 4) g
          (([(0, 0, 0), (0, 0, 1)] : List (ℕ × ℕ × ℕ)).length,
            ((1 : ℕ), (1 : ℕ), (4 : ℕ), (4 : ℕ)).2.1, ((2 : ℕ), (2 : ℕ)).1,
            ((2 : ℕ), (2 : ℕ)).2) [(0, 0, 0), (0, 0, 1)] (2, 2) (2, 2) (0, 0) (1, 1)
          true).2 = none ∧
      ∀ b c r s, c < ((1 : ℕ), (1 : ℕ), (4 : ℕ), (4 : ℕ)).2.1 →
        (sparse_scatter zeros4 (1, 1, 4, 4) g
          (([(0, 0, 0), (0, 0, 1)] : List (ℕ × ℕ × ℕ)).length,
            ((1 : ℕ), (1 : ℕ), (4 : ℕ), (4 : ℕ)).2.1, ((2 : ℕ), (2 : ℕ)).1,
            ((2 : ℕ), (2 : ℕ)).2) [(0, 0, 0), (0, 0, 1)] (2, 2) (2, 2) (0, 0) (1, 1)
          true).1 b c r s =
          (coverCount [(0, 0, 0), (0, 0, 1)] (2, 2) (0, 0) (1, 1) b r s : ℚ) *
            (fun _ _ r s => (10 * r + s : ℚ)) b c r s :=
  claim_C7_additive_roundtrip (fun _ _ r s => (10 * r + s : ℚ)) (1, 1, 4, 4)
    [(0, 0, 0), (0, 0, 1)] (2, 2) (2, 2) (0, 0) (1, 1) rfl (by decide)
